import Mathlib

/-!
Verification of the parq-cli Parquet inspection tool (`src/parq/reader.py`)
against its natural-language specification.

The embedding models:
  * an Arrow table (`Table`) as an ordered schema plus row-major rows;
  * a Parquet file (`ParquetFileData`) as its footer metadata together with
    the list of row groups (each a list of rows);
  * `pyarrow.parquet.ParquetFile` operations used by `reader.py`
    (`read()`, `read(columns=...)`, `metadata`), including which row-group
    ordinals each call decodes;
  * the `ParquetReader` class of `reader.py` method by method.

Machine integers are modelled as `Nat`/`Int`; Python's `max(0, a - b)` on
nonnegative ints coincides with truncated `Nat` subtraction, which is used
where noted.
-/

namespace Parq

/-- One schema field as rendered by `get_schema_info` in `reader.py`:
name, logical type string and nullability flag. -/
structure Field where
  name : String
  type : String
  nullable : Bool
deriving DecidableEq, Repr

/-- Footer metadata of a Parquet file, mirroring the fields of
`pyarrow.parquet.FileMetaData` that `reader.py` reads:
`num_rows`, `num_columns`, `num_row_groups`, `format_version`,
`serialized_size`, `created_by`. -/
structure FileMetaData where
  num_rows : Nat
  num_columns : Nat
  num_row_groups : Nat
  format_version : String
  serialized_size : Nat
  created_by : String
deriving DecidableEq, Repr

/-- An in-memory Arrow table: an ordered schema (column names/types) and
row-major rows, each row holding one value per column. `α` is the value
type. -/
structure Table (α : Type) where
  schema : List Field
  rows : List (List α)
deriving DecidableEq, Repr

/-- `pyarrow.Table.num_rows`. -/
def Table.num_rows {α : Type} (t : Table α) : Nat := t.rows.length

/-- `pyarrow.Table.slice(offset, length)` for nonnegative arguments:
keeps `length` rows starting at row `offset`, clamped to the available
rows (Arrow clamps rather than erroring). -/
def Table.slice {α : Type} (t : Table α) (offset length : Nat) : Table α :=
  { schema := t.schema, rows := (t.rows.drop offset).take length }

/-- The decoded content of one Parquet file: the footer metadata, the
schema (as exposed by `ParquetFile.schema_arrow`), and the row groups,
each row group being the list of its rows in on-disk order. -/
structure ParquetFileData (α : Type) where
  meta : FileMetaData
  schemaFields : List Field
  rowGroups : List (List (List α))
deriving DecidableEq

/-- All rows of the file in on-disk order: the row groups concatenated in
ascending ordinal order. -/
def ParquetFileData.allRows {α : Type} (pf : ParquetFileData α) : List (List α) :=
  pf.rowGroups.flatten

/-- Well-formedness of an opened Parquet container: the footer counts
agree with the data (which `pyarrow` guarantees for a successfully parsed
file), every row has one value per schema field, and field names are
unique within the schema. -/
def ParquetFileData.Wf {α : Type} (pf : ParquetFileData α) : Prop :=
  pf.meta.num_rows = (pf.rowGroups.map List.length).sum ∧
  pf.meta.num_row_groups = pf.rowGroups.length ∧
  pf.meta.num_columns = pf.schemaFields.length ∧
  (∀ row ∈ pf.allRows, row.length = pf.schemaFields.length) ∧
  (pf.schemaFields.map Field.name).Nodup

instance {α : Type} [DecidableEq α] (pf : ParquetFileData α) :
    Decidable pf.Wf := by
  unfold ParquetFileData.Wf; infer_instance

/-- `pyarrow.parquet.ParquetFile.read()` with no column selection: decodes
every row group and returns the whole file as one table. -/
def ParquetFileData.read {α : Type} (pf : ParquetFileData α) : Table α :=
  { schema := pf.schemaFields, rows := pf.allRows }

/-- The row-group ordinals decoded by `ParquetFile.read()`: all of them —
`read()` materializes the entire file regardless of any later slicing. -/
def ParquetFileData.readDecoded {α : Type} (pf : ParquetFileData α) : List Nat :=
  List.range pf.rowGroups.length

/-- Index of the first schema field with the given name, if any
(mirrors the name-to-index map `pyarrow` builds for column selection). -/
def findFieldIdx (sch : List Field) (nm : String) : Option Nat :=
  match sch with
  | [] => none
  | f :: rest =>
      if f.name = nm then some 0 else (findFieldIdx rest nm).map (· + 1)

/-- `pyarrow`'s `ParquetFile._get_column_indices`: resolve each requested
name to a column index, silently skipping names absent from the schema
(the loop only appends an index when the name is found in the map). -/
def resolveIndices (sch : List Field) (names : List String) : List Nat :=
  names.filterMap (findFieldIdx sch)

/-- Project a table to the columns at the given indices, in the given
order; row count and row order are preserved (Arrow keeps the row count
even when zero columns are selected). -/
def Table.selectIdx {α : Type} (t : Table α) (idxs : List Nat) : Table α :=
  { schema := idxs.filterMap (fun i => t.schema.get? i),
    rows := t.rows.map (fun row => idxs.filterMap (fun i => row.get? i)) }

/-- `ParquetFile.read(columns=names)`: resolve the names to indices
(unknown names silently dropped) and read those columns for all rows. -/
def ParquetFileData.readColumnsLib {α : Type} (pf : ParquetFileData α)
    (names : List String) : Table α :=
  pf.read.selectIdx (resolveIndices pf.schemaFields names)

/-- A Python exception as raised along the `ParquetReader.__init__` code
path: `FileNotFoundError` is raised by `reader.py` itself; `ArrowInvalid`
is the `pyarrow` library's own exception class, raised by
`pq.ParquetFile(...)` when the file's footer cannot be parsed and
propagated unwrapped by `reader.py`. -/
inductive PyError where
  | fileNotFoundError (msg : String)
  | arrowInvalid (msg : String)
deriving DecidableEq, Repr

/-- Whether the exception is a library-specific (`pyarrow`) exception
class rather than a Python builtin raised by the tool's own code. -/
def PyError.isLibraryError : PyError → Bool
  | .fileNotFoundError _ => false
  | .arrowInvalid _ => true

/-- Content found at a path: either a parseable Parquet file or a file
whose trailing footer `pyarrow` cannot parse. -/
inductive FileContent (α : Type) where
  | valid (pf : ParquetFileData α)
  | corrupt
deriving DecidableEq

/-- A file system: an association of paths to file contents; a path not
in the list does not exist. -/
def FileSystem (α : Type) : Type := List (String × FileContent α)

/-- Look up a path in the file system (first match). -/
def FileSystem.lookup {α : Type} (fs : FileSystem α) (p : String) :
    Option (FileContent α) :=
  match fs with
  | [] => none
  | (q, c) :: rest => if q = p then some c else FileSystem.lookup rest p

/-- `pyarrow.parquet.ParquetFile(path)` applied to the content at an
existing path: succeeds on a parseable file, raises the library's
`ArrowInvalid` when the footer cannot be parsed. -/
def pqParquetFile {α : Type} (c : FileContent α) :
    Except PyError (ParquetFileData α) :=
  match c with
  | .valid pf => .ok pf
  | .corrupt => .error (.arrowInvalid "Parquet magic bytes not found in footer")

/-- The `ParquetReader` object of `reader.py`: the stored `file_path` and
the `_parquet_file` handle constructed at `__init__`. -/
structure ParquetReader (α : Type) where
  file_path : String
  _parquet_file : ParquetFileData α
deriving DecidableEq

/-- `ParquetReader.__init__`: checks `self.file_path.exists()` and raises
`FileNotFoundError` if not, then constructs `pq.ParquetFile(...)`
(whose own exception propagates unwrapped on a corrupt footer). -/
def ParquetReader.init {α : Type} (fs : FileSystem α) (file_path : String) :
    Except PyError (ParquetReader α) :=
  match fs.lookup file_path with
  | none => .error (.fileNotFoundError ("File not found: " ++ file_path))
  | some c =>
      match pqParquetFile c with
      | .error e => .error e
      | .ok pf => .ok { file_path := file_path, _parquet_file := pf }

/-- The `metadata` property: returns the cached footer metadata. -/
def ParquetReader.metadata {α : Type} (r : ParquetReader α) : FileMetaData :=
  r._parquet_file.meta

/-- The `schema` property: `self._parquet_file.schema_arrow`. -/
def ParquetReader.schema {α : Type} (r : ParquetReader α) : List Field :=
  r._parquet_file.schemaFields

/-- The `num_rows` property: `self.metadata.num_rows`. -/
def ParquetReader.num_rows {α : Type} (r : ParquetReader α) : Nat :=
  r.metadata.num_rows

/-- The `num_columns` property: `self.metadata.num_columns`. -/
def ParquetReader.num_columns {α : Type} (r : ParquetReader α) : Nat :=
  r.metadata.num_columns

/-- The `num_row_groups` property: `self.metadata.num_row_groups`. -/
def ParquetReader.num_row_groups {α : Type} (r : ParquetReader α) : Nat :=
  r.metadata.num_row_groups

/-- A value stored in the metadata dictionary: Python strings or ints. -/
inductive MVal where
  | str (s : String)
  | nat (n : Nat)
deriving DecidableEq, Repr

/-- `ParquetReader.get_metadata_dict`, key by key in insertion order:
exactly the seven entries built by the dict literal in `reader.py`. -/
def ParquetReader.get_metadata_dict {α : Type} (r : ParquetReader α) :
    List (String × MVal) :=
  [("file_path", .str r.file_path),
   ("num_rows", .nat r.num_rows),
   ("num_columns", .nat r.num_columns),
   ("num_row_groups", .nat r.num_row_groups),
   ("format_version", .str r.metadata.format_version),
   ("serialized_size", .nat r.metadata.serialized_size),
   ("created_by", .str r.metadata.created_by)]

/-- `ParquetReader.get_schema_info`: one `{name, type, nullable}` record
per field of the schema, in schema order. -/
def ParquetReader.get_schema_info {α : Type} (r : ParquetReader α) :
    List Field :=
  r.schema.map (fun f => { name := f.name, type := f.type, nullable := f.nullable })

/-- `ParquetReader.read_head(n)`:
`table = self._parquet_file.read(); return table.slice(0, min(n, self.num_rows))`. -/
def ParquetReader.read_head {α : Type} (r : ParquetReader α) (n : Nat := 5) :
    Table α :=
  (r._parquet_file.read).slice 0 (min n r.num_rows)

/-- `ParquetReader.read_tail(n)`:
`table = self._parquet_file.read(); start = max(0, self.num_rows - n);
return table.slice(start, n)`. Truncated `Nat` subtraction is exactly
Python's `max(0, self.num_rows - n)` on nonnegative ints. -/
def ParquetReader.read_tail {α : Type} (r : ParquetReader α) (n : Nat := 5) :
    Table α :=
  (r._parquet_file.read).slice (r.num_rows - n) n

/-- `ParquetReader.read_columns(columns)`: delegates to
`self._parquet_file.read(columns=columns)`; `None` reads all columns. -/
def ParquetReader.read_columns {α : Type} (r : ParquetReader α)
    (columns : Option (List String) := none) : Table α :=
  match columns with
  | none => r._parquet_file.read
  | some names => r._parquet_file.readColumnsLib names

/-- Row-group ordinals decoded by a `read_head` call: the body calls
`self._parquet_file.read()`, which decodes every row group, before
slicing; `n` does not influence what is decoded. -/
def ParquetReader.read_head_decoded {α : Type} (r : ParquetReader α)
    (_n : Nat := 5) : List Nat :=
  r._parquet_file.readDecoded

/-- Row-group ordinals decoded by a `read_tail` call: likewise a full
`self._parquet_file.read()` before slicing. -/
def ParquetReader.read_tail_decoded {α : Type} (r : ParquetReader α)
    (_n : Nat := 5) : List Nat :=
  r._parquet_file.readDecoded

/-- Row-group ordinals decoded by the `num_rows` property: none — it
reads only the cached footer metadata. -/
def ParquetReader.num_rows_decoded {α : Type} (_r : ParquetReader α) :
    List Nat :=
  []

/-- Row-group ordinals decoded by `get_metadata_dict`: none — every entry
comes from the stored path or the cached footer metadata. -/
def ParquetReader.get_metadata_dict_decoded {α : Type}
    (_r : ParquetReader α) : List Nat :=
  []

/-- `read_head` threaded through the object state. The Python method body
reads `self._parquet_file` and `self.num_rows` and assigns no attribute,
so the object after the call is the object before it. -/
def ParquetReader.read_headS {α : Type} (r : ParquetReader α) (n : Nat := 5) :
    Table α × ParquetReader α :=
  (r.read_head n, r)

/-- `read_tail` threaded through the object state; the body assigns no
attribute. -/
def ParquetReader.read_tailS {α : Type} (r : ParquetReader α) (n : Nat := 5) :
    Table α × ParquetReader α :=
  (r.read_tail n, r)

/-- `read_columns` threaded through the object state; the body assigns no
attribute. -/
def ParquetReader.read_columnsS {α : Type} (r : ParquetReader α)
    (columns : Option (List String) := none) : Table α × ParquetReader α :=
  (r.read_columns columns, r)

/-- The `num_rows` property threaded through the object state; the body
assigns no attribute. -/
def ParquetReader.num_rowsS {α : Type} (r : ParquetReader α) :
    Nat × ParquetReader α :=
  (r.num_rows, r)

/-- Modelled from the spec (ReadHead algorithm, §4.2/§8): given the
per-row-group row counts, the ordinals of the row groups whose row range
intersects the window `[0, n)` — the set the spec's head algorithm
decodes. Group `i` covers rows `[sum of earlier sizes, + its size)`. -/
def specHeadGroups (sizes : List Nat) (n : Nat) : List Nat :=
  (List.range sizes.length).filter
    (fun i => decide (((sizes.take i).sum < n) ∧ 0 < sizes.getD i 0))

/-- Modelled from the spec (ReadTail algorithm, §4.2/§8): the ordinals of
the row groups whose row range intersects the trailing window
`[total - n, total)` — the set the spec's tail algorithm decodes. -/
def specTailGroups (sizes : List Nat) (n : Nat) : List Nat :=
  (List.range sizes.length).filter
    (fun i => decide ((sizes.sum - n < (sizes.take i).sum + sizes.getD i 0) ∧
      0 < sizes.getD i 0))

/-- The spec's §8 scenario container: 3 row groups of sizes
`[100, 100, 50]`, 250 rows total, one int64 column. -/
def pf3 : ParquetFileData Nat :=
  { meta := { num_rows := 250, num_columns := 1, num_row_groups := 3,
              format_version := "2.6", serialized_size := 1024,
              created_by := "parquet-cpp-arrow" },
    schemaFields := [{ name := "a", type := "int64", nullable := true }],
    rowGroups := [List.replicate 100 [0], List.replicate 100 [1],
                  List.replicate 50 [2]] }

/-- A reader opened on the scenario container `pf3`. -/
def r3 : ParquetReader Nat :=
  { file_path := "data.parquet", _parquet_file := pf3 }

/-- A small well-formed container used as a concrete witness input:
two fields, two row groups of sizes 2 and 1. -/
def pfW : ParquetFileData Nat :=
  { meta := { num_rows := 3, num_columns := 2, num_row_groups := 2,
              format_version := "2.6", serialized_size := 640,
              created_by := "parquet-cpp-arrow" },
    schemaFields := [{ name := "a", type := "int64", nullable := true },
                     { name := "b", type := "double", nullable := false }],
    rowGroups := [[[10, 11], [20, 21]], [[30, 31]]] }

/-- A reader opened on the witness container `pfW`. -/
def rW : ParquetReader Nat :=
  { file_path := "w.parquet", _parquet_file := pfW }

/-- A file system holding a missing path (absent), a corrupt file and the
valid witness container. -/
def fsW : FileSystem Nat :=
  [("bad.parquet", FileContent.corrupt), ("w.parquet", FileContent.valid pfW)]

/-! Helper lemmas. -/

/-- Under well-formedness, the footer row count is the length of the full
decode. -/
theorem ParquetFileData.num_rows_eq_allRows_length {α : Type}
    (pf : ParquetFileData α) (h : pf.Wf) :
    pf.meta.num_rows = pf.allRows.length := by
  rcases h with ⟨h1, -⟩
  simp [ParquetFileData.allRows, h1]

/-- The reader's `num_rows` property is the footer row count. -/
theorem ParquetReader.num_rows_def {α : Type} (r : ParquetReader α) :
    r.num_rows = r._parquet_file.meta.num_rows := rfl

/-- Rows returned by `read_head`: the first `min n num_rows` rows of the
full decode. -/
theorem ParquetReader.read_head_rows {α : Type} (r : ParquetReader α)
    (n : Nat) :
    (r.read_head n).rows = r._parquet_file.allRows.take (min n r.num_rows) := by
  simp [ParquetReader.read_head, Table.slice, ParquetFileData.read]

/-- Rows returned by `read_tail`: drop `num_rows - n` rows of the full
decode, then take `n`. -/
theorem ParquetReader.read_tail_rows {α : Type} (r : ParquetReader α)
    (n : Nat) :
    (r.read_tail n).rows =
      (r._parquet_file.allRows.drop (r.num_rows - n)).take n := by
  simp [ParquetReader.read_tail, Table.slice, ParquetFileData.read]

/-- `read_head` keeps the full schema. -/
theorem ParquetReader.read_head_schema {α : Type} (r : ParquetReader α)
    (n : Nat) :
    (r.read_head n).schema = r._parquet_file.schemaFields := rfl

/-- `read_tail` keeps the full schema. -/
theorem ParquetReader.read_tail_schema {α : Type} (r : ParquetReader α)
    (n : Nat) :
    (r.read_tail n).schema = r._parquet_file.schemaFields := rfl

/-- Under well-formedness, the reader's `num_rows` is the length of the
full decode. -/
theorem ParquetReader.num_rows_eq_length {α : Type} (r : ParquetReader α)
    (h : r._parquet_file.Wf) :
    r.num_rows = r._parquet_file.allRows.length := by
  rw [ParquetReader.num_rows_def, r._parquet_file.num_rows_eq_allRows_length h]

end Parq

/-- C2: for every valid (well-formed) container handle and every `n ≥ 0`,
`read_head` returns exactly `min n Count` rows, equal to the first
`min n Count` rows of a full decode in on-disk order; in particular
`read_head 0` yields an empty result rather than an error. -/
theorem C2_read_head_min_count {α : Type}
    (r : Parq.ParquetReader α) (h : r._parquet_file.Wf) (n : Nat) :
    (r.read_head n).num_rows = min n r.num_rows ∧
    (r.read_head n).rows =
      (r._parquet_file.read).rows.take (min n r.num_rows) ∧
    (r.read_head 0).rows = [] := by
  have hL := r.num_rows_eq_length h
  refine ⟨?_, ?_, ?_⟩
  · simp only [Parq.Table.num_rows, r.read_head_rows, List.length_take, hL]
    omega
  · simp [r.read_head_rows, Parq.ParquetFileData.read]
  · simp [r.read_head_rows]

/-- Witness for C2 at the concrete container `pfW` with `n = 2`. -/
theorem C2_read_head_min_count_witness :
    (Parq.rW.read_head 2).num_rows = min 2 Parq.rW.num_rows ∧
    (Parq.rW.read_head 2).rows =
      (Parq.rW._parquet_file.read).rows.take (min 2 Parq.rW.num_rows) ∧
    (Parq.rW.read_head 0).rows = [] :=
  C2_read_head_min_count Parq.rW (by decide) 2

/-- C3: for every valid container handle and every `n ≥ 0`, `read_tail`
returns exactly `min n Count` rows, equal to the last `min n Count` rows
of a full decode in on-disk (not reversed) order; when `n ≥ Count` the
start offset is clamped to `0` and all rows are returned rather than an
error. -/
theorem C3_read_tail_returns_min_suffix {α : Type}
    (r : Parq.ParquetReader α) (h : r._parquet_file.Wf) (n : Nat) :
    (r.read_tail n).num_rows = min n r.num_rows ∧
    (r.read_tail n).rows =
      (r._parquet_file.read).rows.drop (r.num_rows - min n r.num_rows) ∧
    (r.num_rows ≤ n → (r.read_tail n).rows = (r._parquet_file.read).rows) := by
  have hL := r.num_rows_eq_length h
  have hdroplen : (r._parquet_file.allRows.drop (r.num_rows - n)).length ≤ n := by
    simp only [List.length_drop]
    omega
  have hrows : (r.read_tail n).rows =
      r._parquet_file.allRows.drop (r.num_rows - min n r.num_rows) := by
    rw [r.read_tail_rows, List.take_of_length_le hdroplen]
    congr 1
    omega
  refine ⟨?_, ?_, ?_⟩
  · simp only [Parq.Table.num_rows, hrows, List.length_drop, hL]
    omega
  · simpa [Parq.ParquetFileData.read] using hrows
  · intro hn
    rw [hrows]
    have h0 : r.num_rows - min n r.num_rows = 0 := by omega
    simp [h0, Parq.ParquetFileData.read]

/-- Witness for C3 at the concrete container `pfW` with `n = 1000`
(larger than the 3 available rows). -/
theorem C3_read_tail_returns_min_suffix_witness :
    (Parq.rW.read_tail 1000).num_rows = min 1000 Parq.rW.num_rows ∧
    (Parq.rW.read_tail 1000).rows =
      (Parq.rW._parquet_file.read).rows.drop
        (Parq.rW.num_rows - min 1000 Parq.rW.num_rows) ∧
    (Parq.rW.num_rows ≤ 1000 →
      (Parq.rW.read_tail 1000).rows = (Parq.rW._parquet_file.read).rows) :=
  C3_read_tail_returns_min_suffix Parq.rW (by decide) 1000

/-- C7: for every valid container handle, `num_rows` (Count) equals the
sum of per-row-group row counts of a full decode, is the value reported
by `get_metadata_dict` under the `num_rows` key, and decodes no row group
to produce its result. -/
theorem C7_count_consistent {α : Type} (r : Parq.ParquetReader α)
    (h : r._parquet_file.Wf) :
    r.num_rows = (r._parquet_file.rowGroups.map List.length).sum ∧
    ("num_rows", Parq.MVal.nat r.num_rows) ∈ r.get_metadata_dict ∧
    r.num_rows_decoded = [] := by
  refine ⟨?_, ?_, rfl⟩
  · rw [Parq.ParquetReader.num_rows_def]
    exact h.1
  · simp [Parq.ParquetReader.get_metadata_dict]

/-- Witness for C7 at the concrete container `pfW`. -/
theorem C7_count_consistent_witness :
    Parq.rW.num_rows = (Parq.rW._parquet_file.rowGroups.map List.length).sum ∧
    ("num_rows", Parq.MVal.nat Parq.rW.num_rows) ∈ Parq.rW.get_metadata_dict ∧
    Parq.rW.num_rows_decoded = [] :=
  C7_count_consistent Parq.rW (by decide)

/-- C9: for every valid container handle and every `k ≤ Count`, the rows
of `read_head k` concatenated with the rows of `read_tail (Count - k)`
are exactly the rows of the full decode: head and tail windows partition
the row sequence with no overlap and no gap. -/
theorem C9_head_tail_partition {α : Type} (r : Parq.ParquetReader α)
    (h : r._parquet_file.Wf) (k : Nat) (hk : k ≤ r.num_rows) :
    (r.read_head k).rows ++ (r.read_tail (r.num_rows - k)).rows =
      (r._parquet_file.read).rows := by
  have hL := r.num_rows_eq_length h
  have hhead : (r.read_head k).rows = r._parquet_file.allRows.take k := by
    rw [r.read_head_rows]
    congr 1
    omega
  have htail : (r.read_tail (r.num_rows - k)).rows =
      r._parquet_file.allRows.drop k := by
    rw [r.read_tail_rows]
    have hidx : r.num_rows - (r.num_rows - k) = k := by omega
    rw [hidx, List.take_of_length_le]
    simp only [List.length_drop]
    omega
  rw [hhead, htail]
  exact List.take_append_drop k _

/-- Witness for C9 at the concrete container `pfW` with `k = 2`. -/
theorem C9_head_tail_partition_witness :
    (Parq.rW.read_head 2).rows ++
      (Parq.rW.read_tail (Parq.rW.num_rows - 2)).rows =
      (Parq.rW._parquet_file.read).rows :=
  C9_head_tail_partition Parq.rW (by decide) 2 (by decide)

/-- A requested name absent from the schema resolves to no column index. -/
theorem findFieldIdx_eq_none {sch : List Parq.Field} {nm : String}
    (h : nm ∉ sch.map Parq.Field.name) : Parq.findFieldIdx sch nm = none := by
  induction sch with
  | nil => rfl
  | cons f rest ih =>
      simp only [List.map_cons, List.mem_cons, not_or] at h
      have hne : ¬ f.name = nm := fun hc => h.1 hc.symm
      simp [Parq.findFieldIdx, hne, ih h.2]

/-- With unique field names, the name of the field at position `i`
resolves back to index `i`. -/
theorem findFieldIdx_get {sch : List Parq.Field}
    (hnd : (sch.map Parq.Field.name).Nodup) :
    ∀ i (hi : i < sch.length), Parq.findFieldIdx sch sch[i].name = some i := by
  induction sch with
  | nil => intro i hi; exact absurd hi (by simp)
  | cons f rest ih =>
      simp only [List.map_cons, List.nodup_cons] at hnd
      intro i hi
      match i with
      | 0 => simp [Parq.findFieldIdx]
      | j + 1 =>
          have hj : j < rest.length := by
            simpa [Nat.succ_lt_succ_iff] using hi
          have hmem0 : rest[j] ∈ rest := by
            exact List.getElem_mem hj
          have hmem : rest[j].name ∈ rest.map Parq.Field.name :=
            List.mem_map_of_mem _ hmem0
          have hne : ¬ f.name = rest[j].name := by
            intro hc
            exact hnd.1 (hc ▸ hmem)
          have hcons : (f :: rest)[j + 1] = rest[j] := rfl
          rw [hcons]
          simp [Parq.findFieldIdx, hne, ih hnd.2 j hj]

/-- `filterMap` over a one-element list selects that one option. -/
theorem filterMap_singleton {γ β : Type} (f : γ → Option β) (x : γ) :
    List.filterMap f [x] = (f x).toList := by
  cases h : f x <;> simp [List.filterMap_cons, h]

set_option maxRecDepth 4000 in
/-- C1: evaluation of the code at the spec's §8 scenario (row groups of
sizes [100, 100, 50], 250 rows): `read_head 150` decodes all three row
groups — its body runs a full `ParquetFile.read()` before slicing — so it
does decode row group 2, while the spec's head algorithm touches only
groups 0 and 1; `read_tail 30` likewise decodes all three groups instead
of only group 2. -/
theorem C1_read_head_decodes_all_row_groups :
    Parq.r3.read_head_decoded 150 = [0, 1, 2] ∧
    2 ∈ Parq.r3.read_head_decoded 150 ∧
    Parq.specHeadGroups [100, 100, 50] 150 = [0, 1] ∧
    Parq.r3.read_tail_decoded 30 = [0, 1, 2] ∧
    Parq.specTailGroups [100, 100, 50] 30 = [2] ∧
    Parq.r3.num_rows = 250 ∧
    Parq.pf3.Wf := by decide

/-- C4 counterexample: opening an existing file whose footer cannot be
parsed raises the decoding library's own `ArrowInvalid` exception,
unwrapped — a library-specific error, not a tool-defined
`CorruptContainer` error (no such error type exists in the code). -/
theorem C4_counterexample_corrupt_raises_library_error :
    Parq.ParquetReader.init Parq.fsW "bad.parquet" =
      Except.error
        (Parq.PyError.arrowInvalid "Parquet magic bytes not found in footer") ∧
    Parq.PyError.isLibraryError
      (Parq.PyError.arrowInvalid "Parquet magic bytes not found in footer") =
      true := by
  exact ⟨rfl, rfl⟩

/-- C4 (amended): opening a nonexistent path raises `FileNotFoundError`
(NotFound); opening an existing file with an unparseable footer lets the
library's `ArrowInvalid` exception propagate; on success a fully
constructed reader is returned with the path and parsed file, with no
partial state. -/
theorem C4_amended_open_behavior {α : Type} (fs : Parq.FileSystem α)
    (path : String) :
    (fs.lookup path = none →
      Parq.ParquetReader.init fs path =
        Except.error
          (Parq.PyError.fileNotFoundError ("File not found: " ++ path))) ∧
    (fs.lookup path = some Parq.FileContent.corrupt →
      ∃ msg, Parq.ParquetReader.init fs path =
        Except.error (Parq.PyError.arrowInvalid msg) ∧
        (Parq.PyError.arrowInvalid msg).isLibraryError = true) ∧
    (∀ pf, fs.lookup path = some (Parq.FileContent.valid pf) →
      Parq.ParquetReader.init fs path =
        Except.ok { file_path := path, _parquet_file := pf }) := by
  refine ⟨?_, ?_, ?_⟩
  · intro h
    simp [Parq.ParquetReader.init, h]
  · intro h
    exact ⟨"Parquet magic bytes not found in footer",
      by simp [Parq.ParquetReader.init, h, Parq.pqParquetFile], rfl⟩
  · intro pf h
    simp [Parq.ParquetReader.init, h, Parq.pqParquetFile]

/-- Witness for C4 (amended) on the concrete file system `fsW`. -/
theorem C4_amended_open_behavior_witness :
    Parq.ParquetReader.init Parq.fsW "missing.parquet" =
      Except.error
        (Parq.PyError.fileNotFoundError
          ("File not found: " ++ "missing.parquet")) ∧
    (∃ msg, Parq.ParquetReader.init Parq.fsW "bad.parquet" =
      Except.error (Parq.PyError.arrowInvalid msg) ∧
      (Parq.PyError.arrowInvalid msg).isLibraryError = true) ∧
    Parq.ParquetReader.init Parq.fsW "w.parquet" =
      Except.ok { file_path := "w.parquet", _parquet_file := Parq.pfW } :=
  ⟨(C4_amended_open_behavior Parq.fsW "missing.parquet").1 (by decide),
   (C4_amended_open_behavior Parq.fsW "bad.parquet").2.1 (by decide),
   (C4_amended_open_behavior Parq.fsW "w.parquet").2.2 Parq.pfW (by decide)⟩

/-- C5 counterexample: the metadata dictionary built by
`get_metadata_dict` has no `num_physical_columns` key at all (evaluated
on the concrete container `pfW`), contradicting the claimed field list. -/
theorem C5_counterexample_no_physical_columns_key :
    "num_physical_columns" ∉ (Parq.rW.get_metadata_dict).map Prod.fst := by
  decide

/-- C5 (amended): for every container handle, `get_metadata_dict` returns
a record with exactly the seven keys file_path, num_rows, num_columns,
num_row_groups, format_version, serialized_size and created_by (no
`num_physical_columns` key), computed as a pure accessor over the stored
path and cached footer, decoding no row group. -/
theorem C5_amended_metadata_dict_keys {α : Type} (r : Parq.ParquetReader α) :
    (r.get_metadata_dict).map Prod.fst =
      ["file_path", "num_rows", "num_columns", "num_row_groups",
       "format_version", "serialized_size", "created_by"] ∧
    r.get_metadata_dict_decoded = [] :=
  ⟨rfl, rfl⟩

/-- C6 counterexample: requesting the absent column `nonexistent_col` on
the concrete container `pfW` does not fail at all — the library's index
resolution silently drops the unknown name, and the call returns a table
with no columns (row count preserved), never an `UnknownColumn` error. -/
theorem C6_counterexample_unknown_column_ignored :
    (Parq.rW.read_columns (some ["nonexistent_col"])).schema = [] ∧
    (Parq.rW.read_columns (some ["nonexistent_col"])).num_rows =
      Parq.rW.num_rows := by
  decide

/-- C6 (amended): `read_columns` validates nothing: every requested name
absent from the schema is silently skipped by the library's
name-to-index resolution, so a request made only of unknown names
succeeds and returns a zero-column table with the full row count — no
`UnknownColumn` error is raised (the code defines no such error). -/
theorem C6_amended_unknown_columns_skipped {α : Type}
    (r : Parq.ParquetReader α) (names : List String)
    (h : ∀ nm ∈ names, nm ∉ r.schema.map Parq.Field.name) :
    (r.read_columns (some names)).schema = [] ∧
    (r.read_columns (some names)).num_rows =
      (r._parquet_file.read).num_rows := by
  have hres : Parq.resolveIndices r._parquet_file.schemaFields names = [] := by
    simp only [Parq.resolveIndices, List.filterMap_eq_nil_iff]
    intro nm hnm
    exact findFieldIdx_eq_none (h nm hnm)
  constructor
  · simp [Parq.ParquetReader.read_columns, Parq.ParquetFileData.readColumnsLib,
      hres, Parq.Table.selectIdx]
  · simp [Parq.ParquetReader.read_columns, Parq.ParquetFileData.readColumnsLib,
      hres, Parq.Table.selectIdx, Parq.Table.num_rows]

/-- Witness for C6 (amended) at the concrete container `pfW`. -/
theorem C6_amended_unknown_columns_skipped_witness :
    (Parq.rW.read_columns (some ["nonexistent_col"])).schema = [] ∧
    (Parq.rW.read_columns (some ["nonexistent_col"])).num_rows =
      (Parq.rW._parquet_file.read).num_rows :=
  C6_amended_unknown_columns_skipped Parq.rW ["nonexistent_col"] (by decide)

/-- C8: for every valid container handle, `read_columns none` is exactly
the full decode covering every schema field, and for each field of the
schema, `read_columns (some [name])` is restricted to exactly that one
column with the same row order and row count as the full decode. -/
theorem C8_column_projection_roundtrip {α : Type} (r : Parq.ParquetReader α)
    (h : r._parquet_file.Wf) :
    r.read_columns none = r._parquet_file.read ∧
    (r.read_columns none).schema = r.schema ∧
    ∀ i (hi : i < r.schema.length),
      (r.read_columns (some [r.schema[i].name])).schema = [r.schema[i]] ∧
      (r.read_columns (some [r.schema[i].name])).rows =
        (r._parquet_file.read).rows.map (fun row => (row.get? i).toList) ∧
      (r.read_columns (some [r.schema[i].name])).num_rows =
        (r._parquet_file.read).num_rows := by
  refine ⟨rfl, rfl, ?_⟩
  intro i hi
  have hs : r.schema = r._parquet_file.schemaFields := rfl
  simp only [hs] at hi ⊢
  have hnd : (r._parquet_file.schemaFields.map Parq.Field.name).Nodup :=
    h.2.2.2.2
  have hres : Parq.resolveIndices r._parquet_file.schemaFields
      [r._parquet_file.schemaFields[i].name] = [i] := by
    have hfind := findFieldIdx_get hnd i hi
    simp [Parq.resolveIndices, filterMap_singleton, hfind]
  have hget : r._parquet_file.schemaFields.get? i =
      some r._parquet_file.schemaFields[i] := by
    rw [List.get?_eq_getElem?]
    exact List.getElem?_eq_getElem hi
  have hget2 : r._parquet_file.schemaFields[i]? =
      some r._parquet_file.schemaFields[i] :=
    List.getElem?_eq_getElem hi
  refine ⟨?_, ?_, ?_⟩
  · simp [Parq.ParquetReader.read_columns, Parq.ParquetFileData.readColumnsLib,
      hres, Parq.Table.selectIdx, filterMap_singleton,
      Parq.ParquetFileData.read, hget, hget2]
  · simp [Parq.ParquetReader.read_columns, Parq.ParquetFileData.readColumnsLib,
      hres, Parq.Table.selectIdx, filterMap_singleton,
      Parq.ParquetFileData.read]
  · simp [Parq.ParquetReader.read_columns, Parq.ParquetFileData.readColumnsLib,
      hres, Parq.Table.selectIdx, Parq.Table.num_rows,
      Parq.ParquetFileData.read]

/-- Witness for C8 at the concrete container `pfW`, projecting its first
field `a`. -/
theorem C8_column_projection_roundtrip_witness :
    (Parq.rW.read_columns (some ["a"])).schema =
      [{ name := "a", type := "int64", nullable := true }] ∧
    (Parq.rW.read_columns (some ["a"])).rows =
      (Parq.rW._parquet_file.read).rows.map (fun row => (row.get? 0).toList) ∧
    (Parq.rW.read_columns (some ["a"])).num_rows =
      (Parq.rW._parquet_file.read).num_rows :=
  (C8_column_projection_roundtrip Parq.rW (by decide)).2.2 0 (by decide)

/-- C10: every read operation (`read_head`, `read_tail`, `read_columns`,
`num_rows`) leaves the handle unchanged — the path, metadata dictionary
and schema observed after the call equal those observed before — and a
repeated call with the same arguments on the handle returned by the
first call yields an equal result. -/
theorem C10_reads_leave_handle_unchanged {α : Type}
    (r : Parq.ParquetReader α) (n : Nat) (cols : Option (List String)) :
    (r.read_headS n).2 = r ∧
    (r.read_tailS n).2 = r ∧
    (r.read_columnsS cols).2 = r ∧
    r.num_rowsS.2 = r ∧
    (r.read_headS n).2.file_path = r.file_path ∧
    (r.read_headS n).2.get_metadata_dict = r.get_metadata_dict ∧
    (r.read_headS n).2.get_schema_info = r.get_schema_info ∧
    ((r.read_headS n).2.read_headS n).1 = (r.read_headS n).1 ∧
    ((r.read_tailS n).2.read_tailS n).1 = (r.read_tailS n).1 ∧
    ((r.read_columnsS cols).2.read_columnsS cols).1 = (r.read_columnsS cols).1 ∧
    (r.num_rowsS.2.num_rowsS).1 = r.num_rowsS.1 :=
  ⟨rfl, rfl, rfl, rfl, rfl, rfl, rfl, rfl, rfl, rfl, rfl⟩
